import Mathlib

/-!
Verification of the LCR-Meter measurement engine (src/main.py).

The Python program is shallowly embedded as follows:
* Float readings captured from the sound card (RMS voltages, phase angles in
  degrees, calibration factor, known resistor) are modelled as rationals `ℚ`
  (every Python float is a dyadic rational, and all branch conditions in the
  source compare such values exactly).
* The derived component values (resistance, capacitance, inductance,
  impedance magnitude), which involve `math.sqrt` and `math.pi`, live in `ℝ`.
* `try ... except (ValueError, ZeroDivisionError)` around a formula is
  modelled by explicit side conditions: a negative `math.sqrt` radicand
  (ValueError) or a zero divisor (ZeroDivisionError) sends the computation to
  the error outcome, exactly as the handler writes "ERR" to the result label.
* The Qt widget state that the orchestration logic reads and writes
  (`measurement_state`, the action button's enabled flag and caption, the
  status and result labels, the captured readings) is collected in the
  `Session` structure; label texts are modelled semantically (`StatusMsg`,
  `MeasureResult`) rather than as formatted strings, since formatting is
  display-only.
-/

namespace LCRMeter

/-- Measurement modes of `LCRMeterWindow` (`self.current_mode`). -/
inductive Mode
  | R | C | L | AUTO
deriving DecidableEq, Repr

/-- The states of the measurement state machine (`self.measurement_state`). -/
inductive MState
  | IDLE
  | WAITING_FOR_VIN_RMS
  | WAITING_FOR_VOUT_RMS
  | WAITING_FOR_VIN_PHASE
  | WAITING_FOR_VOUT_PHASE
  | AUTO_WAITING_FOR_VIN_LOW
  | AUTO_WAITING_FOR_VOUT_LOW
  | AUTO_WAITING_FOR_VIN_HIGH
  | AUTO_WAITING_FOR_VOUT_HIGH
deriving DecidableEq, Repr

/-- Component classifications produced by the auto-detect flows. -/
inductive ComponentType
  | Resistor | Capacitor | Inductor
deriving DecidableEq, Repr

/-- Semantic content of `self.result_label`: blank ("---"), the error marker
("ERR"), a numeric value (the label shows ohms directly, farads scaled by 1e6
to microfarads, henries scaled by 1000 to millihenries), or a detected
component type. -/
inductive MeasureResult
  | blank
  | err
  | ohms (x : ℝ)
  | farads (x : ℝ)
  | henries (x : ℝ)
  | detected (c : ComponentType)

/-- Semantic content of `self.status_label`: one constructor per distinct
`setText` call in the orchestration code, carrying the interpolated values. -/
inductive StatusMsg
  | ready
  | errGeneratorOff
  | step1Vin
  | step1VinAtFreq (f : ℤ)
  | measuringVinLow (f : ℤ)
  | measuringVoutLow (f : ℤ)
  | measuringVinHigh (f : ℤ)
  | measuringVoutHigh (f : ℤ)
  | measuringVin
  | measuringVout
  | measuringVinPhase
  | measuringVoutPhase
  | errVinTooLow (v : ℚ)
  | step2Component (m : Mode) (v : ℚ)
  | errVinInvalid (v : Option ℚ)
  | errVoutGeVin (v : ℚ)
  | complete
  | vinLowMeasured (v : ℚ) (f : ℤ)
  | voutLowMeasured (v : ℚ) (f : ℤ)
  | vinHighMeasured (v : ℚ) (f : ℤ)
  | analyzing
  | errMeasurement
  | detectionCompleteTrend (zl zh : ℝ)
  | vinPhaseMeasured (v : ℚ)
  | errVinPhaseMissing
  | detectionCompletePhase (d : ℚ)

/-- The sweep's low frequency, `self.f_low = 200`. -/
def f_low : ℤ := 200

/-- The sweep's high frequency, `self.f_high = 2000`. -/
def f_high : ℤ := 2000

/-- The mutable state of `LCRMeterWindow` (plus the backend fields the
orchestration reads/writes) that the measurement logic touches. -/
structure Session where
  measurement_state : MState
  current_mode : Mode
  generating_signal : Bool
  action_enabled : Bool
  action_text : String
  status : StatusMsg
  result : MeasureResult
  signal_frequency : ℤ
  known_resistor : ℚ
  calibration_factor : ℚ
  measured_vin_rms : Option ℚ
  measured_vin_phase : Option ℚ
  measured_vin_low : Option ℚ
  measured_vout_low : Option ℚ
  measured_vin_high : Option ℚ
  measured_vout_high : Option ℚ

/-- The window state right after `LCRMeterWindow.__init__` and `setup_ui`. -/
def initialSession : Session where
  measurement_state := .IDLE
  current_mode := .R
  generating_signal := false
  action_enabled := true
  action_text := "MEASURE"
  status := .ready
  result := .blank
  signal_frequency := 1000
  known_resistor := 1000
  calibration_factor := 1/10
  measured_vin_rms := none
  measured_vin_phase := none
  measured_vin_low := none
  measured_vout_low := none
  measured_vin_high := none
  measured_vout_high := none

/-- Embeds `LCRMeterWindow.reset_measurement_state`: re-enable the action button,
restore its caption, return to `IDLE`, and clear all captured readings. -/
def reset_measurement_state (s : Session) : Session :=
  { s with
    action_enabled := true
    action_text := "MEASURE"
    measurement_state := .IDLE
    measured_vin_rms := none
    measured_vin_phase := none
    measured_vin_low := none
    measured_vout_low := none
    measured_vin_high := none
    measured_vout_high := none }

/-- Embeds `LCRMeterWindow.set_measurement_mode`: reset the session, switch the mode,
blank the result and status (the recommendation-label and stylesheet updates
are display-only). -/
def set_measurement_mode (s : Session) (m : Mode) : Session :=
  { reset_measurement_state s with
    current_mode := m
    result := .blank
    status := .ready }

/-- Embeds `LCRMeterWindow.toggle_signal_generator` /
`OhmMeterBackend.start_signal_generation` / `stop_signal_generation`: flips
the generator flag (the sine-producing thread itself is outside the model). -/
def toggle_signal_generator (s : Session) : Session :=
  { s with generating_signal := !s.generating_signal }

/-- The completion slot a spawned background worker is wired to
(`worker.finished.connect(slot_to_connect)`). -/
inductive Callback
  | onVinRms | onVoutRms
  | onVinLow | onVoutLow | onVinHigh | onVoutHigh
  | onVinPhase | onVoutPhase
deriving DecidableEq, Repr

/-- Outcome of the `AutoDetectMethodDialog`: which button was clicked, or
`none` if the dialog was dismissed without accepting. -/
inductive AutoMethod
  | frequency | phase
deriving DecidableEq, Repr

/-- Embeds `LCRMeterWindow.on_action_button_clicked`.  Returns the updated window
state together with the list of background measurement tasks spawned by this
click, each identified by the completion slot it is connected to
(`start_rms_measurement` / `start_phase_measurement` spawn exactly one).
`choice` is the auto-detect dialog's outcome, consulted only in the
`IDLE`/`AUTO` branch. -/
def on_action_button_clicked (s : Session) (choice : Option AutoMethod) :
    Session × List Callback :=
  match s.measurement_state with
  | .IDLE =>
    if !s.generating_signal then
      ({ s with status := .errGeneratorOff }, [])
    else
      let s1 := { s with result := .blank }
      match s1.current_mode with
      | .AUTO =>
        match choice with
        | some .frequency =>
          ({ s1 with
              signal_frequency := f_low
              status := .step1VinAtFreq f_low
              action_text := "Continue"
              measurement_state := .AUTO_WAITING_FOR_VIN_LOW }, [])
        | some .phase =>
          ({ s1 with
              status := .step1Vin
              action_text := "Continue"
              measurement_state := .WAITING_FOR_VIN_PHASE }, [])
        | none => (s1, [])
      | _ =>
        ({ s1 with
            status := .step1Vin
            action_text := "Continue"
            measurement_state := .WAITING_FOR_VIN_RMS }, [])
  | .AUTO_WAITING_FOR_VIN_LOW =>
    ({ s with status := .measuringVinLow f_low, action_enabled := false },
     [.onVinLow])
  | .AUTO_WAITING_FOR_VOUT_LOW =>
    ({ s with status := .measuringVoutLow f_low, action_enabled := false },
     [.onVoutLow])
  | .AUTO_WAITING_FOR_VIN_HIGH =>
    ({ s with status := .measuringVinHigh f_high, action_enabled := false },
     [.onVinHigh])
  | .AUTO_WAITING_FOR_VOUT_HIGH =>
    ({ s with status := .measuringVoutHigh f_high, action_enabled := false },
     [.onVoutHigh])
  | .WAITING_FOR_VIN_RMS =>
    ({ s with status := .measuringVin, action_enabled := false },
     [.onVinRms])
  | .WAITING_FOR_VOUT_RMS =>
    ({ s with status := .measuringVout, action_enabled := false },
     [.onVoutRms])
  | .WAITING_FOR_VIN_PHASE =>
    ({ s with status := .measuringVinPhase, action_enabled := false },
     [.onVinPhase])
  | .WAITING_FOR_VOUT_PHASE =>
    ({ s with status := .measuringVoutPhase, action_enabled := false },
     [.onVoutPhase])

/-- Embeds `LCRMeterWindow.on_vin_rms_measured` (manual flow, step 1 completion):
below the 0.0001 V noise floor the session aborts to `IDLE` with an error;
otherwise the reading is stored and the machine advances to
`WAITING_FOR_VOUT_RMS`. -/
def on_vin_rms_measured (s : Session) (v : ℚ) : Session :=
  if v < 0.0001 then
    reset_measurement_state { s with status := .errVinTooLow v }
  else
    { s with
      measured_vin_rms := some v
      status := .step2Component s.current_mode v
      action_enabled := true
      action_text := "Continue"
      measurement_state := .WAITING_FOR_VOUT_RMS }

/-- Embeds `LCRMeterWindow.on_vout_rms_measured` (manual flow, step 2 completion and
result computation).  The `try/except (ValueError, ZeroDivisionError)` blocks
of the C and L branches are modelled by explicit side conditions: a zero
divisor (`vout = 0`, `f = 0`, `R_known = 0`, `sqrt(...) = 0`, `1 - ratio² = 0`)
or a negative `math.sqrt` radicand sends the branch to the "ERR" result.  In
the L branch `vin ≠ 0` is guaranteed by the earlier `vin ≤ 0` test, so
`vout / vin` cannot raise.  Every branch falls through to
`reset_measurement_state`, and the success path (including a caught formula
error) also sets the "Measurement Complete!" status. -/
noncomputable def on_vout_rms_measured (s : Session) (vout : ℚ) : Session :=
  match s.measured_vin_rms with
  | none => reset_measurement_state { s with status := .errVinInvalid none }
  | some vin =>
    if vin ≤ 0 then
      reset_measurement_state { s with status := .errVinInvalid (some vin) }
    else if vin ≤ vout then
      reset_measurement_state
        { s with status := .errVoutGeVin vout, result := .err }
    else
      let Rk : ℝ := s.known_resistor
      let f : ℝ := s.signal_frequency
      let s2 :=
        match s.current_mode with
        | .R =>
          { s with result := .ohms (Rk * vout / ((vin : ℝ) - vout)) }
        | .C =>
          if vout = 0 then { s with result := .err }
          else
            let rt : ℝ := (vin : ℝ) / vout
            if f = 0 ∨ rt ^ 2 - 1 < 0 ∨ Real.sqrt (rt ^ 2 - 1) = 0 ∨ Rk = 0 then
              { s with result := .err }
            else
              { s with result :=
                  .farads (1 / (2 * Real.pi * f) * (1 / Real.sqrt (rt ^ 2 - 1)) / Rk) }
        | .L =>
          let rt : ℝ := (vout : ℝ) / vin
          if f = 0 ∨ 1 - rt ^ 2 = 0 ∨ rt ^ 2 / (1 - rt ^ 2) < 0 then
            { s with result := .err }
          else
            { s with result :=
                .henries (Rk / (2 * Real.pi * f) * Real.sqrt (rt ^ 2 / (1 - rt ^ 2))) }
        | .AUTO => s
      reset_measurement_state { s2 with status := .complete }

/-- Embeds `LCRMeterWindow.on_vin_low_measured` (sweep step 1 completion): stores the
reading unconditionally — there is no noise-floor test here — and advances. -/
def on_vin_low_measured (s : Session) (v : ℚ) : Session :=
  { s with
    measured_vin_low := some v
    status := .vinLowMeasured v f_low
    action_enabled := true
    measurement_state := .AUTO_WAITING_FOR_VOUT_LOW }

/-- Embeds `LCRMeterWindow.on_vout_low_measured` (sweep step 2 completion): stores
the reading, retunes the generator to `f_high`, and advances. -/
def on_vout_low_measured (s : Session) (v : ℚ) : Session :=
  { s with
    measured_vout_low := some v
    signal_frequency := f_high
    status := .voutLowMeasured v f_high
    action_enabled := true
    measurement_state := .AUTO_WAITING_FOR_VIN_HIGH }

/-- Embeds `LCRMeterWindow.on_vin_high_measured` (sweep step 3 completion): stores
the reading unconditionally and advances. -/
def on_vin_high_measured (s : Session) (v : ℚ) : Session :=
  { s with
    measured_vin_high := some v
    status := .vinHighMeasured v f_high
    action_enabled := true
    measurement_state := .AUTO_WAITING_FOR_VOUT_HIGH }

/-- Embeds `LCRMeterWindow.calculate_impedance_magnitude`: `None` when a reading is
missing, when `vin ≤ vout`, when `vin / vout` raises ZeroDivisionError
(`vout = 0`), and when `math.sqrt` raises ValueError (negative radicand) or
the division by `sqrt(0)` raises ZeroDivisionError — both covered by
`ratio² − 1 ≤ 0`.  Otherwise `R_known / sqrt((vin/vout)² − 1)`. -/
noncomputable def calculate_impedance_magnitude (Rk : ℚ) (vin vout : Option ℚ) :
    Option ℝ :=
  match vin, vout with
  | some vi, some vo =>
    if vi ≤ vo then none
    else if vo = 0 then none
    else
      let rsq : ℚ := (vi / vo) ^ 2
      if rsq - 1 ≤ 0 then none
      else some ((Rk : ℝ) / Real.sqrt ((rsq : ℝ) - 1))
  | _, _ => none

/-- Embeds `LCRMeterWindow.analyze_impedance_trend`: fails (result "ERR") when either
impedance is undefined or non-positive — leaving the generator frequency
unchanged — and otherwise classifies by the impedance trend and resets the
generator to 1000 Hz. -/
noncomputable def analyze_impedance_trend (s : Session) : Session :=
  let zlo := calculate_impedance_magnitude s.known_resistor
    s.measured_vin_low s.measured_vout_low
  let zhi := calculate_impedance_magnitude s.known_resistor
    s.measured_vin_high s.measured_vout_high
  match zlo, zhi with
  | some zl, some zh =>
    if zl ≤ 0 ∨ zh ≤ 0 then
      reset_measurement_state { s with result := .err, status := .errMeasurement }
    else
      let ct : ComponentType :=
        if max zl zh / min zl zh < 2 then .Resistor
        else if zh < zl then .Capacitor
        else .Inductor
      reset_measurement_state
        { s with
          result := .detected ct
          status := .detectionCompleteTrend zl zh
          signal_frequency := 1000 }
  | _, _ =>
    reset_measurement_state { s with result := .err, status := .errMeasurement }

/-- Embeds `LCRMeterWindow.on_vout_high_measured` (sweep step 4 completion): stores
the reading and immediately analyzes the trend. -/
noncomputable def on_vout_high_measured (s : Session) (v : ℚ) : Session :=
  analyze_impedance_trend
    { s with
      measured_vout_high := some v
      action_enabled := false
      status := .analyzing }

/-- First normalization loop of `on_vout_phase_measured`:
`while phase_diff > 180: phase_diff -= 360`. -/
def while_sub (d : ℚ) : ℚ :=
  if h : d > 180 then while_sub (d - 360) else d
termination_by (⌈(d - 180) / 360⌉).toNat
decreasing_by
  have h1 : (d - 360 - 180) / 360 = (d - 180) / 360 - 1 := by ring
  rw [h1, Int.ceil_sub_one]
  have h2 : (0 : ℤ) < ⌈(d - 180) / 360⌉ :=
    Int.ceil_pos.mpr (div_pos (by linarith) (by norm_num))
  omega

/-- Second normalization loop of `on_vout_phase_measured`:
`while phase_diff < -180: phase_diff += 360`. -/
def while_plus (d : ℚ) : ℚ :=
  if h : d < -180 then while_plus (d + 360) else d
termination_by (⌈(-180 - d) / 360⌉).toNat
decreasing_by
  have h1 : (-180 - (d + 360)) / 360 = (-180 - d) / 360 - 1 := by ring
  rw [h1, Int.ceil_sub_one]
  have h2 : (0 : ℤ) < ⌈(-180 - d) / 360⌉ :=
    Int.ceil_pos.mpr (div_pos (by linarith) (by norm_num))
  omega

/-- The two sequential normalization loops of `on_vout_phase_measured`. -/
def normalize_phase_diff (d : ℚ) : ℚ := while_plus (while_sub d)

/-- Embeds `LCRMeterWindow.on_vin_phase_measured` (phase flow, step 1 completion). -/
def on_vin_phase_measured (s : Session) (v : ℚ) : Session :=
  { s with
    measured_vin_phase := some v
    status := .vinPhaseMeasured v
    action_enabled := true
    action_text := "Continue"
    measurement_state := .WAITING_FOR_VOUT_PHASE }

/-- Embeds `LCRMeterWindow.on_vout_phase_measured` (phase flow, step 2 completion):
normalizes the phase difference with the two while loops and classifies. -/
def on_vout_phase_measured (s : Session) (voutPhase : ℚ) : Session :=
  match s.measured_vin_phase with
  | none => reset_measurement_state { s with status := .errVinPhaseMissing }
  | some vinPhase =>
    let d := normalize_phase_diff (voutPhase - vinPhase)
    let ct : ComponentType :=
      if |d| < 15 then .Resistor
      else if d < -15 then .Capacitor
      else .Inductor
    reset_measurement_state
      { s with result := .detected ct, status := .detectionCompletePhase d }

/-- Final normalization of `OhmMeterBackend.get_phase_of_signal`:
`phase_deg = np.degrees(phase_rad) % 360; if phase_deg > 180: phase_deg -= 360`,
applied to the bin's angle in degrees.  Python's float `%` computes
`x - 360 * floor(x / 360)`. -/
def normalize_phase_deg (x : ℚ) : ℚ :=
  let m := x - 360 * ⌊x / 360⌋
  if m > 180 then m - 360 else m

/-- Dispatch from a worker's `finished` signal to the slot it was connected
to by `start_rms_measurement` / `start_phase_measurement`. -/
noncomputable def runCallback : Callback → Session → ℚ → Session
  | .onVinRms => on_vin_rms_measured
  | .onVoutRms => on_vout_rms_measured
  | .onVinLow => on_vin_low_measured
  | .onVoutLow => on_vout_low_measured
  | .onVinHigh => on_vin_high_measured
  | .onVoutHigh => on_vout_high_measured
  | .onVinPhase => on_vin_phase_measured
  | .onVoutPhase => on_vout_phase_measured

/-- Python `int()` applied to a float: truncation toward zero. -/
def intTrunc (q : ℚ) : ℤ := if q < 0 then ⌈q⌉ else ⌊q⌋

/-- The chunk count of `OhmMeterBackend.get_stable_rms`:
`num_chunks_to_read = int((self.RATE / self.CHUNK) * duration_seconds)` with
`RATE = 44100` and `CHUNK = 1024`. -/
def num_chunks_to_read (d : ℚ) : ℤ := intTrunc (44100 / 1024 * d)

/-- One loop iteration of `get_stable_rms`:
`np.sqrt(np.mean(data**2)) / 32767 * self.calibration_factor` for one chunk
of raw samples. -/
noncomputable def chunkRmsVolts (chunk : List ℚ) (cal : ℚ) : ℝ :=
  Real.sqrt ((chunk.map (fun x => (x : ℝ) ^ 2)).sum / chunk.length) / 32767 * cal

/-- Embeds `OhmMeterBackend.get_stable_rms`, with the audio input abstracted as
`stream`, the sequence of chunks that successive `self.stream.read` calls
return; the final line is `np.mean(readings) if readings else 0`. -/
noncomputable def get_stable_rms (d : ℚ) (stream : ℕ → List ℚ) (cal : ℚ) : ℝ :=
  let n := (num_chunks_to_read d).toNat
  let readings := (List.range n).map (fun i => chunkRmsVolts (stream i) cal)
  if readings.isEmpty then 0 else readings.sum / readings.length

/-- Body of `PlotWindow._update_calibration`: `float(text)` either parses —
modelled as `some v` — and is stored, or raises `ValueError` — modelled as
`none` — and the prior value is kept (the box text is restored from it). -/
def update_calibration (cal : ℚ) (parsed : Option ℚ) : ℚ :=
  match parsed with
  | some v => v
  | none => cal

/-- Body of `LCRMeterWindow._update_known_resistor`; same shape as
`_update_calibration`. -/
def update_known_resistor (r : ℚ) (parsed : Option ℚ) : ℚ :=
  match parsed with
  | some v => v
  | none => r

/-- A `QDoubleValidator(bottom, top, decimals)` installed on a `QLineEdit`
gates `editingFinished`: Qt emits the signal only while the text is
Acceptable, which requires it to parse as a number lying in
`[bottom, top]` (the decimals restriction only shrinks the acceptable set
further and is irrelevant to the properties proved here). -/
def validatorAccepts (bottom top : ℚ) (parsed : Option ℚ) : Bool :=
  match parsed with
  | some v => decide (bottom ≤ v ∧ v ≤ top)
  | none => false

/-- The full calibration-edit pipeline: the handler (gated by the
`QDoubleValidator(0.0001, 10.0, 4)` installed in `PlotWindow.__init__`)
runs only on acceptable input; otherwise the stored value is untouched. -/
def calibration_edit (cal : ℚ) (parsed : Option ℚ) : ℚ :=
  if validatorAccepts 0.0001 10 parsed then update_calibration cal parsed else cal

/-- The full known-resistor-edit pipeline, gated by the
`QDoubleValidator(1.0, 1000000.0, 2)` installed in `create_widgets`. -/
def known_resistor_edit (r : ℚ) (parsed : Option ℚ) : ℚ :=
  if validatorAccepts 1 1000000 parsed then update_known_resistor r parsed else r

/-- A window state together with the background measurement tasks currently
in flight, each identified by the completion slot it will invoke. -/
structure SysState where
  ui : Session
  pending : List Callback

/-- Effect of toggling the signal generator on the whole system. -/
def toggleStep (s : SysState) : SysState :=
  ⟨toggle_signal_generator s.ui, s.pending⟩

/-- Effect of clicking a mode button on the whole system: the window state is
reset, but any in-flight task keeps running (its `finished` signal stays
connected). -/
def modeStep (s : SysState) (m : Mode) : SysState :=
  ⟨set_measurement_mode s.ui m, s.pending⟩

/-- Effect of clicking the action button on the whole system: the spawned
workers are appended to the in-flight list. -/
def clickStep (s : SysState) (choice : Option AutoMethod) : SysState :=
  ⟨(on_action_button_clicked s.ui choice).1,
   s.pending ++ (on_action_button_clicked s.ui choice).2⟩

/-- Effect of an in-flight worker finishing with value `v`: its slot runs and
it leaves the in-flight list. -/
noncomputable def completeStep (s : SysState) (c : Callback) (v : ℚ) : SysState :=
  ⟨runCallback c s.ui v, s.pending.erase c⟩

/-- The events the window reacts to.  A click on a disabled button does not
fire (`setEnabled(False)`), hence the guard on `click`; mode buttons and the
generator button are never disabled. -/
inductive Step : SysState → SysState → Prop
  | toggleGen (s : SysState) : Step s (toggleStep s)
  | setMode (s : SysState) (m : Mode) : Step s (modeStep s m)
  | click (s : SysState) (choice : Option AutoMethod)
      (h : s.ui.action_enabled = true) : Step s (clickStep s choice)
  | complete (s : SysState) (c : Callback) (v : ℚ)
      (h : c ∈ s.pending) : Step s (completeStep s c v)

/-- States reachable from the freshly initialized window. -/
inductive Reachable : SysState → Prop
  | init : Reachable ⟨initialSession, []⟩
  | step {s t : SysState} : Reachable s → Step s t → Reachable t

/-- The events of `Step` without mode-button clicks. -/
inductive StepNM : SysState → SysState → Prop
  | toggleGen (s : SysState) : StepNM s (toggleStep s)
  | click (s : SysState) (choice : Option AutoMethod)
      (h : s.ui.action_enabled = true) : StepNM s (clickStep s choice)
  | complete (s : SysState) (c : Callback) (v : ℚ)
      (h : c ∈ s.pending) : StepNM s (completeStep s c v)

/-- States reachable from the freshly initialized window without ever
pressing a mode button. -/
inductive ReachableNM : SysState → Prop
  | init : ReachableNM ⟨initialSession, []⟩
  | step {s t : SysState} : ReachableNM s → StepNM s t → ReachableNM t

/-- A sweep session in which all four readings were captured and `vin > vout`
holds at both frequencies, but `vout_low = 0`; the generator is still at
`f_high = 2000` when `analyze_impedance_trend` runs. -/
def trendCexSession : Session :=
  { initialSession with
    measured_vin_low := some 1
    measured_vout_low := some 0
    measured_vin_high := some 2
    measured_vout_high := some 1
    signal_frequency := 2000 }

/-- All six captured readings of a session are cleared. -/
def readingsCleared (s : Session) : Prop :=
  s.measured_vin_rms = none ∧ s.measured_vin_phase = none ∧
  s.measured_vin_low = none ∧ s.measured_vout_low = none ∧
  s.measured_vin_high = none ∧ s.measured_vout_high = none

/-- The first normalization loop never exits above 180. -/
theorem while_sub_le (d : ℚ) : while_sub d ≤ 180 := by
  induction d using while_sub.induct with
  | case1 d h ih => rw [while_sub, dif_pos h]; exact ih
  | case2 d h => rw [while_sub, dif_neg h]; linarith [not_lt.mp h]

/-- The first normalization loop preserves a strict lower bound of −180. -/
theorem while_sub_lb (d : ℚ) (hd : -180 < d) : -180 < while_sub d := by
  induction d using while_sub.induct with
  | case1 d h ih => rw [while_sub, dif_pos h]; exact ih (by linarith)
  | case2 d h => rw [while_sub, dif_neg h]; exact hd

/-- The first loop does not run on inputs already at most 180. -/
theorem while_sub_eq_self (d : ℚ) (hd : d ≤ 180) : while_sub d = d := by
  rw [while_sub, dif_neg (not_lt.mpr hd)]

/-- The second normalization loop never exits below −180. -/
theorem while_plus_ge (d : ℚ) : -180 ≤ while_plus d := by
  induction d using while_plus.induct with
  | case1 d h ih => rw [while_plus, dif_pos h]; exact ih
  | case2 d h => rw [while_plus, dif_neg h]; linarith [not_lt.mp h]

/-- The second normalization loop preserves an upper bound of 180. -/
theorem while_plus_le (d : ℚ) (hd : d ≤ 180) : while_plus d ≤ 180 := by
  induction d using while_plus.induct with
  | case1 d h ih => rw [while_plus, dif_pos h]; exact ih (by linarith)
  | case2 d h => rw [while_plus, dif_neg h]; exact hd

/-- The second loop does not run on inputs already at least −180. -/
theorem while_plus_eq_self (d : ℚ) (hd : -180 ≤ d) : while_plus d = d := by
  rw [while_plus, dif_neg (not_lt.mpr hd)]

/-- C5 (amended): the normalization at the end of `get_phase_of_signal`
(`% 360`, then subtract 360 above 180) lands in the half-open range
(−180, 180] for every input angle; but the while-loop normalization of the
phase difference in `on_vout_phase_measured` lands in the closed range
[−180, 180]: the endpoint −180 is kept as −180, not mapped to 180, so its
range is not (−180, 180]. -/
theorem phase_normalization_spec :
    (∀ x : ℚ, -180 < normalize_phase_deg x ∧ normalize_phase_deg x ≤ 180) ∧
    (∀ vinPhase voutPhase : ℚ,
      -180 ≤ normalize_phase_diff (voutPhase - vinPhase) ∧
      normalize_phase_diff (voutPhase - vinPhase) ≤ 180) := by
  constructor
  · intro x
    have hfr0 : (0 : ℚ) ≤ Int.fract (x / 360) := Int.fract_nonneg _
    have hfr1 : Int.fract (x / 360) < 1 := Int.fract_lt_one _
    have key : x - 360 * ⌊x / 360⌋ = 360 * Int.fract (x / 360) := by
      rw [Int.fract]; ring
    have hdef : normalize_phase_deg x =
        if x - 360 * ⌊x / 360⌋ > 180 then x - 360 * ⌊x / 360⌋ - 360
        else x - 360 * ⌊x / 360⌋ := rfl
    rw [hdef]
    split
    · constructor <;> nlinarith
    · rename_i hle
      rw [not_lt] at hle
      constructor
      · nlinarith
      · exact hle
  · intro vinPhase voutPhase
    exact ⟨while_plus_ge _, while_plus_le _ (while_sub_le _)⟩

/-- C5 counterexample: the phases 90 and −90 both lie in (−180, 180] — they
are values `get_phase_of_signal` can produce — yet the normalized difference
computed by `on_vout_phase_measured` is exactly −180, which is outside the
claimed range (−180, 180]. -/
theorem phase_diff_normalization_cex :
    normalize_phase_diff (-90 - 90) = -180 ∧
      ¬ (-180 < normalize_phase_diff (-90 - 90)) := by
  have h : normalize_phase_diff (-90 - 90) = -180 := by
    rw [show (-90 - 90 : ℚ) = -180 by norm_num]
    unfold normalize_phase_diff
    rw [while_sub_eq_self _ (by norm_num), while_plus_eq_self _ (by norm_num)]
  exact ⟨h, by rw [h]; norm_num⟩

/-- C4 (amended): for the normalized phase difference `d` computed by
`on_vout_phase_measured`, the classification is Resistor when `|d| < 15`,
Capacitor when `d ≤ −15 and not |d| < 15` holds via `d < −15`, and Inductor
otherwise; at the boundary values `d = 15` and `d = −15` exactly, the
classification is Inductor, not Resistor — the resistor predicate is the
strict `|d| < 15`, so the boundary is excluded from the Resistor class. -/
theorem phase_classification_spec (s : Session) (vinPhase voutPhase : ℚ)
    (hvin : s.measured_vin_phase = some vinPhase) :
    ((|normalize_phase_diff (voutPhase - vinPhase)| < 15 →
        (on_vout_phase_measured s voutPhase).result = .detected .Resistor) ∧
     (normalize_phase_diff (voutPhase - vinPhase) < -15 →
        (on_vout_phase_measured s voutPhase).result = .detected .Capacitor) ∧
     (¬ |normalize_phase_diff (voutPhase - vinPhase)| < 15 →
      ¬ normalize_phase_diff (voutPhase - vinPhase) < -15 →
        (on_vout_phase_measured s voutPhase).result = .detected .Inductor)) := by
  unfold on_vout_phase_measured
  rw [hvin]
  refine ⟨fun h1 => ?_, fun h2 => ?_, fun h1 h2 => ?_⟩
  · simp [reset_measurement_state, if_pos h1]
  · have h1 : ¬ |normalize_phase_diff (voutPhase - vinPhase)| < 15 := by
      rw [not_lt, le_abs]; right; linarith
    simp [reset_measurement_state, if_neg h1, if_pos h2]
  · simp [reset_measurement_state, if_neg h1, if_neg h2]

/-- Witness for C4: with captured vin phase 0 and measured vout phase −40,
the difference −40 satisfies the Capacitor predicate and the handler reports
Capacitor. -/
theorem phase_classification_spec_witness :
    (on_vout_phase_measured
      { initialSession with measured_vin_phase := some 0 } (-40)).result =
      .detected .Capacitor := by
  have key := (phase_classification_spec
    { initialSession with measured_vin_phase := some 0 } 0 (-40) rfl).2.1
  have hd : normalize_phase_diff (-40 - 0) = -40 := by
    rw [show (-40 - 0 : ℚ) = -40 by norm_num]
    unfold normalize_phase_diff
    rw [while_sub_eq_self _ (by norm_num), while_plus_eq_self _ (by norm_num)]
  exact key (by rw [hd]; norm_num)

/-- C4 counterexample: at the boundary phase differences +15° and −15°
exactly (vin phase 0, vout phase ±15), the handler classifies the component
as Inductor, not Resistor: the boundary is not included in the Resistor
class. -/
theorem phase_classification_cex :
    (on_vout_phase_measured
        { initialSession with measured_vin_phase := some 0 } 15).result =
      .detected .Inductor ∧
    (on_vout_phase_measured
        { initialSession with measured_vin_phase := some 0 } (-15)).result =
      .detected .Inductor ∧
    normalize_phase_diff (15 - 0) = 15 ∧
    normalize_phase_diff (-15 - 0) = -15 := by
  have h15 : normalize_phase_diff (15 - 0) = 15 := by
    rw [show (15 - 0 : ℚ) = 15 by norm_num]
    unfold normalize_phase_diff
    rw [while_sub_eq_self _ (by norm_num), while_plus_eq_self _ (by norm_num)]
  have hm15 : normalize_phase_diff (-15 - 0) = -15 := by
    rw [show (-15 - 0 : ℚ) = -15 by norm_num]
    unfold normalize_phase_diff
    rw [while_sub_eq_self _ (by norm_num), while_plus_eq_self _ (by norm_num)]
  refine ⟨?_, ?_, h15, hm15⟩
  · unfold on_vout_phase_measured
    simp only [show ({ initialSession with measured_vin_phase := some 0 } :
        Session).measured_vin_phase = some 0 from rfl]
    rw [h15]
    norm_num [reset_measurement_state]
  · unfold on_vout_phase_measured
    simp only [show ({ initialSession with measured_vin_phase := some 0 } :
        Session).measured_vin_phase = some 0 from rfl]
    rw [hm15]
    norm_num [reset_measurement_state]

/-- C1: for the manual result computation on a captured vin (always positive,
since only readings at or above the noise floor are stored) and a measured
vout (an RMS value, hence nonnegative): `vin ≤ vout` yields the failed "ERR"
result with no numeric value; otherwise mode R yields
`R_known·vout/(vin − vout)` ohms — in particular vin = 5 V, vout = 2.5 V,
R_known = 1000 Ω yields 1000 Ω — mode C yields
`1/(2πf) · 1/sqrt((vin/vout)² − 1) / R_known` farads, mode L yields
`(R_known/(2πf)) · sqrt(ratio²/(1 − ratio²))` henries with
`ratio = vout/vin`, and a domain error (here: division by zero at
`vout = 0` in mode C) yields the failed result instead of a value. -/
theorem manual_result_formulas (s : Session) (vin vout : ℚ)
    (hvin : s.measured_vin_rms = some vin) :
    ((0 < vin → vin ≤ vout →
        (on_vout_rms_measured s vout).result = .err) ∧
     (s.current_mode = .R → 0 ≤ vout → vout < vin →
        (on_vout_rms_measured s vout).result =
          .ohms ((s.known_resistor : ℝ) * (vout : ℝ) / ((vin : ℝ) - (vout : ℝ)))) ∧
     (s.current_mode = .C → 0 < vout → vout < vin →
      0 < s.signal_frequency → 0 < s.known_resistor →
        (on_vout_rms_measured s vout).result =
          .farads (1 / (2 * Real.pi * (s.signal_frequency : ℝ)) *
            (1 / Real.sqrt (((vin : ℝ) / (vout : ℝ)) ^ 2 - 1)) /
            (s.known_resistor : ℝ))) ∧
     (s.current_mode = .L → 0 ≤ vout → vout < vin → 0 < s.signal_frequency →
        (on_vout_rms_measured s vout).result =
          .henries ((s.known_resistor : ℝ) /
            (2 * Real.pi * (s.signal_frequency : ℝ)) *
            Real.sqrt (((vout : ℝ) / (vin : ℝ)) ^ 2 /
              (1 - ((vout : ℝ) / (vin : ℝ)) ^ 2)))) ∧
     (s.current_mode = .C → 0 < vin → vout = 0 →
        (on_vout_rms_measured s vout).result = .err) ∧
     (on_vout_rms_measured
        { initialSession with measured_vin_rms := some 5, known_resistor := 1000 }
        (5/2)).result = .ohms 1000) := by
  refine ⟨?_, ?_, ?_, ?_, ?_, ?_⟩
  · intro h0 hle
    unfold on_vout_rms_measured
    rw [hvin]
    simp only [if_neg (not_le.mpr h0), if_pos hle]
    simp [reset_measurement_state]
  · intro hm hv0 hlt
    have h0 : 0 < vin := lt_of_le_of_lt hv0 hlt
    unfold on_vout_rms_measured
    rw [hvin, hm]
    simp only [if_neg (not_le.mpr h0), if_neg (not_le.mpr hlt)]
    simp [reset_measurement_state]
  · intro hm hv0 hlt hf hr
    have h0 : 0 < vin := lt_trans hv0 hlt
    have hrt : (1 : ℝ) < (vin : ℝ) / (vout : ℝ) := by
      rw [lt_div_iff₀ (by exact_mod_cast hv0)]
      linarith [show (vout : ℝ) < vin by exact_mod_cast hlt]
    have hrad : (0 : ℝ) < ((vin : ℝ) / (vout : ℝ)) ^ 2 - 1 := by nlinarith
    unfold on_vout_rms_measured
    rw [hvin, hm]
    simp only [if_neg (not_le.mpr h0), if_neg (not_le.mpr hlt),
      if_neg (show ¬ vout = 0 from ne_of_gt hv0)]
    rw [if_neg]
    · simp [reset_measurement_state]
    · push_neg
      refine ⟨?_, ?_, ?_, ?_⟩
      · exact_mod_cast (ne_of_gt hf)
      · linarith
      · exact ne_of_gt (Real.sqrt_pos.mpr hrad)
      · exact_mod_cast (ne_of_gt hr)
  · intro hm hv0 hlt hf
    have h0 : 0 < vin := lt_of_le_of_lt hv0 hlt
    have hrt0 : (0 : ℝ) ≤ (vout : ℝ) / (vin : ℝ) := by positivity
    have hrt1 : (vout : ℝ) / (vin : ℝ) < 1 := by
      rw [div_lt_one (by exact_mod_cast h0)]
      exact_mod_cast hlt
    have hden : (0 : ℝ) < 1 - ((vout : ℝ) / (vin : ℝ)) ^ 2 := by nlinarith
    unfold on_vout_rms_measured
    rw [hvin, hm]
    simp only [if_neg (not_le.mpr h0), if_neg (not_le.mpr hlt)]
    rw [if_neg]
    · simp [reset_measurement_state]
    · push_neg
      refine ⟨?_, ?_, ?_⟩
      · exact_mod_cast (ne_of_gt hf)
      · linarith
      · positivity
  · intro hm h0 hv0
    unfold on_vout_rms_measured
    rw [hvin, hm, hv0]
    simp only [if_neg (not_le.mpr h0)]
    simp [reset_measurement_state]
  · unfold on_vout_rms_measured
    norm_num [initialSession, reset_measurement_state]

/-- Witness for C1: with captured vin = 2 V and measured vout = 3 V
(`vin ≤ vout`), the manual computation reports the failed "ERR" result. -/
theorem manual_result_formulas_witness :
    (on_vout_rms_measured
      { initialSession with measured_vin_rms := some 2 } 3).result = .err :=
  (manual_result_formulas
    { initialSession with measured_vin_rms := some 2 } 2 3 rfl).1
    (by norm_num) (by norm_num)

/-- C2 (amended): `get_stable_rms(durationSeconds)` reads exactly
`int(durationSeconds × sampleRate / chunkSize)` chunks — Python `int()`
truncation toward zero, which equals the floor for positive durations, not
the ceiling — computes each chunk's RMS amplitude over raw samples, converts
it to volts as `amplitude / 32767 × calibration_factor`, returns the
arithmetic mean of the per-chunk voltages, and returns 0 when
`durationSeconds ≤ 0` (no chunk read). -/
theorem stable_rms_spec (d : ℚ) (stream : ℕ → List ℚ) (cal : ℚ) :
    (get_stable_rms d stream cal =
      if (num_chunks_to_read d).toNat = 0 then 0
      else (∑ i ∈ Finset.range (num_chunks_to_read d).toNat,
              chunkRmsVolts (stream i) cal) /
           ((num_chunks_to_read d).toNat : ℝ)) ∧
    (0 < d → num_chunks_to_read d = ⌊44100 / 1024 * d⌋) ∧
    (d ≤ 0 → get_stable_rms d stream cal = 0) := by
  have hcount : d ≤ 0 → (num_chunks_to_read d).toNat = 0 := by
    intro h
    unfold num_chunks_to_read intTrunc
    simp only [Int.toNat_eq_zero]
    split
    · refine Int.ceil_le.mpr ?_
      push_cast
      nlinarith
    · exact Int.floor_nonpos (by nlinarith)
  have hmain : get_stable_rms d stream cal =
      if (num_chunks_to_read d).toNat = 0 then 0
      else (∑ i ∈ Finset.range (num_chunks_to_read d).toNat,
              chunkRmsVolts (stream i) cal) /
           ((num_chunks_to_read d).toNat : ℝ) := by
    unfold get_stable_rms
    rcases Nat.eq_zero_or_pos (num_chunks_to_read d).toNat with h0 | h0
    · rw [h0]
      simp
    · rw [if_neg (Nat.pos_iff_ne_zero.mp h0)]
      rw [if_neg (by
        simp only [List.isEmpty_eq_true, List.map_eq_nil_iff, List.range_eq_nil]
        exact Nat.pos_iff_ne_zero.mp h0)]
      rw [show ((List.range (num_chunks_to_read d).toNat).map
            (fun i => chunkRmsVolts (stream i) cal)).sum =
          ∑ i ∈ Finset.range (num_chunks_to_read d).toNat,
            chunkRmsVolts (stream i) cal from rfl]
      simp
  refine ⟨hmain, ?_, ?_⟩
  · intro h
    unfold num_chunks_to_read intTrunc
    rw [if_neg (not_lt.mpr (by positivity))]
  · intro h
    rw [hmain, if_pos (hcount h)]

/-- Witness for C2: at the nonpositive duration −1 no chunk is read and the
result is 0; at the duration 2 actually used by `RMSWorker`, the chunk count
is the floor value 86. -/
theorem stable_rms_spec_witness :
    get_stable_rms (-1) (fun _ => []) 1 = 0 ∧
      num_chunks_to_read 2 = ⌊(44100 / 1024 * 2 : ℚ)⌋ :=
  ⟨(stable_rms_spec (-1) (fun _ => []) 1).2.2 (by norm_num),
   (stable_rms_spec 2 (fun _ => []) 1).2.1 (by norm_num)⟩

/-- C2 counterexample: at the duration 2 s that the program actually uses
(`RMSWorker.run` calls `get_stable_rms(2)`), the code reads
`int(44100/1024 × 2) = 86` chunks, while the claimed
`ceil(2 × 44100/1024)` is 87. -/
theorem stable_rms_chunk_count_cex :
    num_chunks_to_read 2 = 86 ∧ ⌈(2 : ℚ) * 44100 / 1024⌉ = 87 := by
  constructor
  · unfold num_chunks_to_read intTrunc
    rw [if_neg (by norm_num), Int.floor_eq_iff]
    norm_num
  · rw [Int.ceil_eq_iff]
    norm_num

/-- Evaluation of `calculate_impedance_magnitude` on present readings with
`vin > vout > 0`: none of the guards fire and the closed form is returned. -/
theorem calc_imp_eval (Rk vi vo : ℚ) (h0 : 0 < vo) (hlt : vo < vi) :
    calculate_impedance_magnitude Rk (some vi) (some vo) =
      some ((Rk : ℝ) / Real.sqrt (((vi : ℝ) / (vo : ℝ)) ^ 2 - 1)) := by
  have hrt : (1 : ℚ) < vi / vo := (one_lt_div h0).mpr hlt
  unfold calculate_impedance_magnitude
  dsimp only
  rw [if_neg (not_le.mpr hlt), if_neg (ne_of_gt h0),
    if_neg (show ¬ ((vi / vo) ^ 2 - 1 ≤ 0) by push_neg; nlinarith)]
  congr 2
  push_cast
  ring

/-- C3 (amended): the apparent impedance equals
`R_known / sqrt((vin/vout)² − 1)` whenever `vin > vout > 0`, and is undefined
when a reading is missing, when `vin ≤ vout`, or when `vout = 0` (division by
zero); the overall result is a failure whenever either impedance is undefined
or non-positive, and on failure the generator frequency is left unchanged;
otherwise the classification is Resistor when `max(Z_low,Z_high) /
min(Z_low,Z_high) < 2`, else Capacitor when `Z_high < Z_low`, else Inductor,
and on this successful completion the generator frequency is reset to the
default 1000 Hz. -/
theorem trend_analysis_spec :
    (∀ Rk vi vo : ℚ, vi ≤ vo →
        calculate_impedance_magnitude Rk (some vi) (some vo) = none) ∧
    (∀ (Rk : ℚ) (vo : Option ℚ),
        calculate_impedance_magnitude Rk none vo = none) ∧
    (∀ (Rk : ℚ) (vi : Option ℚ),
        calculate_impedance_magnitude Rk vi none = none) ∧
    (∀ Rk vi vo : ℚ, 0 < vo → vo < vi →
        calculate_impedance_magnitude Rk (some vi) (some vo) =
          some ((Rk : ℝ) / Real.sqrt (((vi : ℝ) / (vo : ℝ)) ^ 2 - 1))) ∧
    (∀ s : Session,
        calculate_impedance_magnitude s.known_resistor
          s.measured_vin_low s.measured_vout_low = none →
        (analyze_impedance_trend s).result = .err ∧
        (analyze_impedance_trend s).measurement_state = .IDLE ∧
        (analyze_impedance_trend s).signal_frequency = s.signal_frequency) ∧
    (∀ (s : Session) (zl zh : ℝ),
        calculate_impedance_magnitude s.known_resistor
          s.measured_vin_low s.measured_vout_low = some zl →
        calculate_impedance_magnitude s.known_resistor
          s.measured_vin_high s.measured_vout_high = some zh →
        0 < zl → 0 < zh →
        (analyze_impedance_trend s).result =
          .detected (if max zl zh / min zl zh < 2 then .Resistor
                     else if zh < zl then .Capacitor else .Inductor) ∧
        (analyze_impedance_trend s).signal_frequency = 1000 ∧
        (analyze_impedance_trend s).measurement_state = .IDLE) := by
  refine ⟨?_, ?_, ?_, ?_, ?_, ?_⟩
  · intro Rk vi vo h
    unfold calculate_impedance_magnitude
    dsimp only
    rw [if_pos h]
  · intro Rk vo
    unfold calculate_impedance_magnitude
    rfl
  · intro Rk vi
    unfold calculate_impedance_magnitude
    cases vi <;> rfl
  · intro Rk vi vo h0 hlt
    exact calc_imp_eval Rk vi vo h0 hlt
  · intro s h
    unfold analyze_impedance_trend
    rw [h]
    simp [reset_measurement_state]
  · intro s zl zh hlow hhigh hzl hzh
    unfold analyze_impedance_trend
    rw [hlow, hhigh]
    dsimp only
    rw [if_neg (show ¬ (zl ≤ 0 ∨ zh ≤ 0) by push_neg; exact ⟨hzl, hzh⟩)]
    simp [reset_measurement_state]

/-- Witness for C3: with readings vin = 5 V, vout = 3 V at both frequencies
and the default 1000 Ω reference, both impedances equal 750 Ω, the ratio is
1 < 2, the detected component is Resistor, and the generator frequency ends
at the 1000 Hz default. -/
theorem trend_analysis_spec_witness :
    (analyze_impedance_trend
      { initialSession with
        measured_vin_low := some 5
        measured_vout_low := some 3
        measured_vin_high := some 5
        measured_vout_high := some 3
        signal_frequency := 2000 }).result = .detected .Resistor ∧
    (analyze_impedance_trend
      { initialSession with
        measured_vin_low := some 5
        measured_vout_low := some 3
        measured_vin_high := some 5
        measured_vout_high := some 3
        signal_frequency := 2000 }).signal_frequency = 1000 := by
  have hsqrt : Real.sqrt ((((5 : ℚ) : ℝ) / ((3 : ℚ) : ℝ)) ^ 2 - 1) = 4 / 3 := by
    rw [show (((5 : ℚ) : ℝ) / ((3 : ℚ) : ℝ)) ^ 2 - 1 = (4 / 3) ^ 2 by push_cast; norm_num,
      Real.sqrt_sq (by norm_num)]
  have hz : calculate_impedance_magnitude 1000 (some 5) (some 3) =
      some (((1000 : ℚ) : ℝ) / (4 / 3)) := by
    rw [trend_analysis_spec.2.2.2.1 1000 5 3 (by norm_num) (by norm_num), hsqrt]
  have key := trend_analysis_spec.2.2.2.2.2
    { initialSession with
      measured_vin_low := some 5
      measured_vout_low := some 3
      measured_vin_high := some 5
      measured_vout_high := some 3
      signal_frequency := 2000 }
    (((1000 : ℚ) : ℝ) / (4 / 3)) (((1000 : ℚ) : ℝ) / (4 / 3)) hz hz
    (by push_cast; norm_num) (by push_cast; norm_num)
  refine ⟨?_, key.2.1⟩
  rw [key.1]
  have hne : (((1000 : ℚ) : ℝ) / (4 / 3)) ≠ 0 := by push_cast; norm_num
  rw [max_self, min_self, div_self hne, if_pos (by norm_num)]

/-- C3 counterexample: in `trendCexSession` no reading is missing and
`vin > vout` holds at both frequencies (1 > 0 and 2 > 1), yet the overall
result is the failure "ERR" — because `vout_low = 0` makes the low-frequency
impedance undefined — and the generator frequency stays at 2000 Hz instead
of being reset to 1000 Hz. -/
theorem trend_analysis_cex :
    (analyze_impedance_trend trendCexSession).result = .err ∧
    (analyze_impedance_trend trendCexSession).signal_frequency = 2000 ∧
    trendCexSession.measured_vin_low = some 1 ∧
    trendCexSession.measured_vout_low = some 0 ∧
    trendCexSession.measured_vin_high = some 2 ∧
    trendCexSession.measured_vout_high = some 1 := by
  have hlow : calculate_impedance_magnitude trendCexSession.known_resistor
      trendCexSession.measured_vin_low trendCexSession.measured_vout_low = none := by
    show calculate_impedance_magnitude 1000 (some 1) (some 0) = none
    unfold calculate_impedance_magnitude
    norm_num
  refine ⟨?_, ?_, rfl, rfl, rfl, rfl⟩ <;>
    · unfold analyze_impedance_trend
      rw [hlow]
      simp [reset_measurement_state, trendCexSession]

/-- Every state produced by `reset_measurement_state` is `IDLE`, has all
readings cleared and the action button re-enabled, and keeps the result,
status and generator frequency of its argument. -/
theorem reset_props (s : Session) :
    (reset_measurement_state s).measurement_state = .IDLE ∧
    readingsCleared (reset_measurement_state s) ∧
    (reset_measurement_state s).action_enabled = true ∧
    (reset_measurement_state s).result = s.result ∧
    (reset_measurement_state s).status = s.status ∧
    (reset_measurement_state s).signal_frequency = s.signal_frequency := by
  unfold reset_measurement_state readingsCleared
  exact ⟨rfl, ⟨rfl, rfl, rfl, rfl, rfl, rfl⟩, rfl, rfl, rfl, rfl⟩

/-- C8: a manual-flow Vin reading below 0.0001 V aborts the session to `IDLE`
with the "too low" error; and every terminal handler — the noise-floor abort,
the manual result computation, the trend analysis (hence sweep step 4), and
the phase classification — leaves the session in `IDLE` with all captured
readings (vin_rms, vin_phase, vin_low, vout_low, vin_high, vout_high)
cleared, for every input. -/
theorem terminal_reset_spec :
    (∀ (s : Session) (v : ℚ), v < 0.0001 →
        (on_vin_rms_measured s v).measurement_state = .IDLE ∧
        (on_vin_rms_measured s v).status = .errVinTooLow v ∧
        readingsCleared (on_vin_rms_measured s v)) ∧
    (∀ (s : Session) (v : ℚ),
        (on_vout_rms_measured s v).measurement_state = .IDLE ∧
        readingsCleared (on_vout_rms_measured s v)) ∧
    (∀ s : Session,
        (analyze_impedance_trend s).measurement_state = .IDLE ∧
        readingsCleared (analyze_impedance_trend s)) ∧
    (∀ (s : Session) (v : ℚ),
        (on_vout_high_measured s v).measurement_state = .IDLE ∧
        readingsCleared (on_vout_high_measured s v)) ∧
    (∀ (s : Session) (v : ℚ),
        (on_vout_phase_measured s v).measurement_state = .IDLE ∧
        readingsCleared (on_vout_phase_measured s v)) := by
  have hres : ∀ y : Session,
      (reset_measurement_state y).measurement_state = .IDLE ∧
      readingsCleared (reset_measurement_state y) := fun y =>
    ⟨(reset_props y).1, (reset_props y).2.1⟩
  have hana : ∀ s : Session,
      (analyze_impedance_trend s).measurement_state = .IDLE ∧
      readingsCleared (analyze_impedance_trend s) := by
    intro s
    unfold analyze_impedance_trend
    dsimp only
    split
    · split
      · exact hres _
      · exact hres _
    · exact hres _
  refine ⟨?_, ?_, hana, fun s v => hana _, ?_⟩
  · intro s v h
    unfold on_vin_rms_measured
    rw [if_pos h]
    exact ⟨(reset_props _).1, by rw [(reset_props _).2.2.2.2.1], (reset_props _).2.1⟩
  · intro s v
    unfold on_vout_rms_measured
    cases s.measured_vin_rms with
    | none => exact hres _
    | some vin =>
      dsimp only
      split_ifs <;> exact hres _
  · intro s v
    unfold on_vout_phase_measured
    cases s.measured_vin_phase with
    | none => exact hres _
    | some vinPhase => exact hres _

/-- Witness for C8: a Vin reading of 0.00005 V (below the noise floor) on the
fresh window aborts to `IDLE` with the "too low" error and cleared
readings. -/
theorem terminal_reset_spec_witness :
    (on_vin_rms_measured initialSession (5/100000)).measurement_state = .IDLE ∧
    (on_vin_rms_measured initialSession (5/100000)).status =
      .errVinTooLow (5/100000) ∧
    readingsCleared (on_vin_rms_measured initialSession (5/100000)) :=
  terminal_reset_spec.1 initialSession (5/100000) (by norm_num)

/-- C9: a calibration-factor or known-resistor edit whose text does not parse
as a number leaves the stored value unchanged (the handler catches the
`ValueError` and only restores the box text); an accepted edit — one the
installed `QDoubleValidator` lets through, i.e. a numeric value within
[0.0001, 10] resp. [1, 1000000] — stores exactly the entered value, which is
positive; and any edit whatsoever preserves the positivity invariants
`calibration_factor > 0` and `known_resistor > 0`. -/
theorem calibration_edit_spec :
    (∀ cal : ℚ, update_calibration cal none = cal ∧
        calibration_edit cal none = cal) ∧
    (∀ r : ℚ, update_known_resistor r none = r ∧
        known_resistor_edit r none = r) ∧
    (∀ cal v : ℚ, validatorAccepts 0.0001 10 (some v) = true →
        calibration_edit cal (some v) = v ∧ 0 < calibration_edit cal (some v)) ∧
    (∀ r v : ℚ, validatorAccepts 1 1000000 (some v) = true →
        known_resistor_edit r (some v) = v ∧ 0 < known_resistor_edit r (some v)) ∧
    (∀ (cal : ℚ) (parsed : Option ℚ), 0 < cal → 0 < calibration_edit cal parsed) ∧
    (∀ (r : ℚ) (parsed : Option ℚ), 0 < r → 0 < known_resistor_edit r parsed) := by
  refine ⟨?_, ?_, ?_, ?_, ?_, ?_⟩
  · intro cal
    exact ⟨rfl, rfl⟩
  · intro r
    exact ⟨rfl, rfl⟩
  · intro cal v h
    simp only [validatorAccepts, decide_eq_true_eq] at h
    have he : calibration_edit cal (some v) = v := by
      unfold calibration_edit
      rw [if_pos]
      · rfl
      · simp [validatorAccepts, h]
    exact ⟨he, by rw [he]; linarith [h.1]⟩
  · intro r v h
    simp only [validatorAccepts, decide_eq_true_eq] at h
    have he : known_resistor_edit r (some v) = v := by
      unfold known_resistor_edit
      rw [if_pos]
      · rfl
      · simp [validatorAccepts, h]
    exact ⟨he, by rw [he]; linarith [h.1]⟩
  · intro cal parsed h0
    unfold calibration_edit
    split
    · rename_i hacc
      cases parsed with
      | none => simp [validatorAccepts] at hacc
      | some v =>
        simp only [validatorAccepts, decide_eq_true_eq] at hacc
        show (0 : ℚ) < update_calibration cal (some v)
        unfold update_calibration
        linarith [hacc.1]
    · exact h0
  · intro r parsed h0
    unfold known_resistor_edit
    split
    · rename_i hacc
      cases parsed with
      | none => simp [validatorAccepts] at hacc
      | some v =>
        simp only [validatorAccepts, decide_eq_true_eq] at hacc
        show (0 : ℚ) < update_known_resistor r (some v)
        unfold update_known_resistor
        linarith [hacc.1]
    · exact h0

/-- Witness for C9: an unparseable edit keeps the default calibration factor
0.1, and the accepted edit "2" stores the positive value 2. -/
theorem calibration_edit_spec_witness :
    (update_calibration (1/10) none = 1/10 ∧ calibration_edit (1/10) none = 1/10) ∧
    (calibration_edit (1/10) (some 2) = 2 ∧ 0 < calibration_edit (1/10) (some 2)) :=
  ⟨calibration_edit_spec.1 (1/10),
   calibration_edit_spec.2.2.1 (1/10) 2 (by
    simp only [validatorAccepts, decide_eq_true_eq]
    norm_num)⟩

/-- C10: the sweep flow's Vin completion handlers store whatever value the
stable-RMS task returns — including values below the 0.0001 V noise floor —
and advance to the next step; the noise-floor abort exists only in the manual
flow's first step (`on_vin_rms_measured`); and a too-weak source in the sweep
flow surfaces only later as a failed trend-analysis result, when
`vin ≤ vout` at a frequency or a computed impedance is non-positive. -/
theorem sweep_vin_no_noise_floor :
    (∀ (s : Session) (v : ℚ),
        (on_vin_low_measured s v).measured_vin_low = some v ∧
        (on_vin_low_measured s v).measurement_state = .AUTO_WAITING_FOR_VOUT_LOW ∧
        (on_vin_low_measured s v).action_enabled = true) ∧
    (∀ (s : Session) (v : ℚ),
        (on_vin_high_measured s v).measured_vin_high = some v ∧
        (on_vin_high_measured s v).measurement_state = .AUTO_WAITING_FOR_VOUT_HIGH ∧
        (on_vin_high_measured s v).action_enabled = true) ∧
    (∀ (s : Session) (v : ℚ), v < 0.0001 →
        (on_vin_rms_measured s v).measurement_state = .IDLE ∧
        (on_vin_rms_measured s v).measured_vin_rms = none) ∧
    (∀ (s : Session) (vl vo : ℚ),
        s.measured_vin_low = some vl → s.measured_vout_low = some vo → vl ≤ vo →
        (analyze_impedance_trend s).result = .err ∧
        (analyze_impedance_trend s).measurement_state = .IDLE) ∧
    (∀ (s : Session) (vil vol vih voh : ℚ),
        s.measured_vin_low = some vil → s.measured_vout_low = some vol →
        s.measured_vin_high = some vih → s.measured_vout_high = some voh →
        0 < vol → vol < vil → 0 < voh → voh < vih → s.known_resistor ≤ 0 →
        (analyze_impedance_trend s).result = .err) := by
  refine ⟨?_, ?_, ?_, ?_, ?_⟩
  · intro s v
    exact ⟨rfl, rfl, rfl⟩
  · intro s v
    exact ⟨rfl, rfl, rfl⟩
  · intro s v h
    unfold on_vin_rms_measured
    rw [if_pos h]
    exact ⟨(reset_props _).1, (reset_props _).2.1.1⟩
  · intro s vl vo hvl hvo hle
    have hnone : calculate_impedance_magnitude s.known_resistor
        s.measured_vin_low s.measured_vout_low = none := by
      rw [hvl, hvo]
      unfold calculate_impedance_magnitude
      dsimp only
      rw [if_pos hle]
    unfold analyze_impedance_trend
    rw [hnone]
    exact ⟨by simp [reset_measurement_state], (reset_props _).1⟩
  · intro s vil vol vih voh hvl hvo hvh hvoh h1 h2 h3 h4 hRk
    have hRk' : ((s.known_resistor : ℝ)) ≤ 0 := by exact_mod_cast hRk
    have hz : ((s.known_resistor : ℝ) /
        Real.sqrt (((vil : ℝ) / (vol : ℝ)) ^ 2 - 1)) ≤ 0 :=
      div_nonpos_of_nonpos_of_nonneg hRk' (Real.sqrt_nonneg _)
    unfold analyze_impedance_trend
    rw [hvl, hvo, hvh, hvoh, calc_imp_eval _ _ _ h1 h2, calc_imp_eval _ _ _ h3 h4]
    dsimp only
    rw [if_pos (Or.inl hz)]
    simp [reset_measurement_state]

/-- Witness for C10: a Vin_low reading of 0.00005 V — below the noise floor —
is stored and the sweep advances, while the same value in the manual flow
aborts to `IDLE` without storing. -/
theorem sweep_vin_no_noise_floor_witness :
    (on_vin_low_measured initialSession (5/100000)).measured_vin_low =
      some (5/100000) ∧
    (on_vin_low_measured initialSession (5/100000)).measurement_state =
      .AUTO_WAITING_FOR_VOUT_LOW ∧
    (on_vin_rms_measured initialSession (5/100000)).measurement_state = .IDLE ∧
    (on_vin_rms_measured initialSession (5/100000)).measured_vin_rms = none :=
  ⟨(sweep_vin_no_noise_floor.1 initialSession (5/100000)).1,
   (sweep_vin_no_noise_floor.1 initialSession (5/100000)).2.1,
   (sweep_vin_no_noise_floor.2.2.1 initialSession (5/100000) (by norm_num)).1,
   (sweep_vin_no_noise_floor.2.2.1 initialSession (5/100000) (by norm_num)).2⟩

/-- C6: when the state machine is `IDLE` and the signal generator is not
enabled, clicking the measure action only sets the user-visible error message
"Error: Turn on Signal Generator first.": the state stays `IDLE`, every other
field is unchanged, and no background measurement task is spawned. -/
theorem idle_without_generator_rejects (s : Session) (choice : Option AutoMethod)
    (hidle : s.measurement_state = .IDLE)
    (hgen : s.generating_signal = false) :
    on_action_button_clicked s choice =
      ({ s with status := .errGeneratorOff }, []) := by
  unfold on_action_button_clicked
  rw [hidle]
  simp [hgen]

/-- Witness for C6: the freshly initialized window is `IDLE` with the
generator off, and clicking measure there is rejected in place. -/
theorem idle_without_generator_rejects_witness :
    initialSession.measurement_state = .IDLE ∧
      initialSession.generating_signal = false ∧
      on_action_button_clicked initialSession none =
        ({ initialSession with status := .errGeneratorOff }, []) :=
  ⟨rfl, rfl, idle_without_generator_rejects initialSession none rfl rfl⟩

/-- Every click spawns at most one background task, and a click that does
spawn one leaves the action button disabled. -/
theorem click_spawn_props (s : Session) (choice : Option AutoMethod) :
    (on_action_button_clicked s choice).2.length ≤ 1 ∧
    ((on_action_button_clicked s choice).2 ≠ [] →
      (on_action_button_clicked s choice).1.action_enabled = false) := by
  unfold on_action_button_clicked
  cases s.measurement_state <;> dsimp only
  case IDLE =>
    split_ifs
    · simp
    · rcases choice with _ | m
      · cases s.current_mode <;> simp
      · cases m <;> cases s.current_mode <;> simp
  all_goals simp

/-- C7 (amended): as long as no mode button is pressed, every reachable state
of the system has at most one background measurement task in flight; while a
task is pending the action control is disabled — so a second continue action
cannot fire, let alone spawn a second task — and any event that can occur
while a task is pending (generator toggle or task completion, completions
removing the task they report for) never increases the number of in-flight
tasks.  (Pressing a mode button while a task is pending breaks this: see the
counterexample.) -/
theorem single_task_invariant (s : SysState) (h : ReachableNM s) :
    s.pending.length ≤ 1 ∧
    (s.pending ≠ [] → s.ui.action_enabled = false) ∧
    (∀ t : SysState, s.pending ≠ [] → StepNM s t →
      t.pending.length ≤ s.pending.length) := by
  have main : s.pending.length ≤ 1 ∧
      (s.pending ≠ [] → s.ui.action_enabled = false) := by
    induction h with
    | init => simp
    | step hr hst ih =>
      rename_i s1 t1
      cases hst with
      | toggleGen => exact ih
      | click choice hen =>
        have hp : s1.pending = [] := by
          by_contra hne
          have hdis := ih.2 hne
          rw [hen] at hdis
          exact Bool.noConfusion hdis
        constructor
        · show (s1.pending ++ (on_action_button_clicked s1.ui choice).2).length ≤ 1
          rw [hp, List.nil_append]
          exact (click_spawn_props s1.ui choice).1
        · intro hne
          show (on_action_button_clicked s1.ui choice).1.action_enabled = false
          refine (click_spawn_props s1.ui choice).2 ?_
          have hne2 : s1.pending ++ (on_action_button_clicked s1.ui choice).2 ≠ [] := hne
          rw [hp, List.nil_append] at hne2
          exact hne2
      | complete c v hc =>
        have hone : 1 ≤ s1.pending.length :=
          List.length_pos.mpr (List.ne_nil_of_mem hc)
        have hlen : s1.pending.length = 1 := le_antisymm ih.1 hone
        obtain ⟨a, ha⟩ := List.length_eq_one.mp hlen
        have herase : s1.pending.erase c = [] := by
          rw [ha] at hc ⊢
          have hac : c = a := by simpa using hc
          rw [hac]
          simp
        constructor
        · show (s1.pending.erase c).length ≤ 1
          rw [herase]
          simp
        · intro hne
          exact absurd herase hne
  refine ⟨main.1, main.2, ?_⟩
  intro t hne hst
  cases hst with
  | toggleGen => exact le_refl _
  | click choice hen =>
    have hdis := main.2 hne
    rw [hen] at hdis
    exact Bool.noConfusion hdis
  | complete c v hc =>
    exact (List.erase_sublist c s.pending).length_le

/-- Witness for C7: after turning on the generator, entering the manual flow
and clicking continue, exactly one task (wired to `on_vin_rms_measured`) is
in flight and the action button is disabled. -/
theorem single_task_invariant_witness :
    (clickStep (clickStep (toggleStep ⟨initialSession, []⟩) none) none).pending.length ≤ 1 ∧
    (clickStep (clickStep (toggleStep ⟨initialSession, []⟩) none) none).ui.action_enabled = false := by
  have hreach : ReachableNM
      (clickStep (clickStep (toggleStep ⟨initialSession, []⟩) none) none) :=
    .step (.step (.step .init (.toggleGen _)) (.click _ none rfl)) (.click _ none rfl)
  have key := single_task_invariant _ hreach
  exact ⟨key.1, key.2.1 (by decide)⟩

/-- C7 counterexample: the claim fails for the full event set.  Trace: turn
the generator on, start the manual flow, click continue (one task now
pending, button disabled), press the mode button R — `set_measurement_mode`
calls `reset_measurement_state`, which re-enables the action button while the
task is still pending — then click measure and continue again: a second task
is spawned while the first is still in flight, so the reachable system state
holds two pending tasks. -/
theorem single_task_invariant_cex :
    Reachable (clickStep (clickStep (modeStep (clickStep (clickStep
      (toggleStep ⟨initialSession, []⟩) none) none) .R) none) none) ∧
    (clickStep (clickStep (modeStep (clickStep (clickStep
      (toggleStep ⟨initialSession, []⟩) none) none) .R) none) none).pending.length = 2 ∧
    (modeStep (clickStep (clickStep
      (toggleStep ⟨initialSession, []⟩) none) none) .R).pending ≠ [] ∧
    (modeStep (clickStep (clickStep
      (toggleStep ⟨initialSession, []⟩) none) none) .R).ui.action_enabled = true := by
  have h0 : Reachable ⟨initialSession, []⟩ := .init
  have h1 := Reachable.step h0 (Step.toggleGen _)
  have h2 := Reachable.step h1 (Step.click _ none rfl)
  have h3 := Reachable.step h2 (Step.click _ none rfl)
  have h4 := Reachable.step h3 (Step.setMode _ .R)
  have h5 := Reachable.step h4 (Step.click _ none rfl)
  have h6 := Reachable.step h5 (Step.click _ none rfl)
  exact ⟨h6, rfl, by decide, rfl⟩

end LCRMeter
